import Mathlib

/-!
# CipherShare core: shallow embedding and verification

This file embeds the dual-layer encryption engine (`src/server/crypto.service.ts`)
and the secret lifecycle manager backed by the TTL key-value store
(`redis.service.ts`) into Lean, and proves / refutes the specification claims
about them.

Modelling conventions:
* A JavaScript string is a list of UTF-16 code units, `Str := List Nat`.
* A Node `Buffer` is a list of bytes, `Bytes := List (Fin 256)`.
* The AES-256-GCM primitive and PBKDF2 are abstracted as fields of a `Prims`
  structure carrying exactly the algebraic facts the service relies on
  (AEAD decryption inverts encryption under the same key/iv/tag; derived
  keys are 32 bytes long).  `JSON.stringify`/`JSON.parse` on the two record
  types are likewise abstract with a parse-inverts-serialize law.
* All randomness (`crypto.randomBytes`) is passed explicitly as arguments.
* Thrown JavaScript errors are modelled with `Except Str`.
-/

/-- UTF-16 code-unit sequences, the model of JavaScript strings. -/
abbrev Str := List Nat

/-- A single byte of a Node `Buffer`. -/
abbrev Byte := Fin 256

/-- Node `Buffer` contents. -/
abbrev Bytes := List Byte

/-- Code unit of the `':'` separator used throughout the wire format. -/
def colon : Nat := 58

/-- Embed a Lean string literal as a list of UTF-16 code units. -/
def strLit (s : String) : Str := s.data.map Char.toNat

/-! ## Splitting on a separator (JavaScript `String.prototype.split`) -/

/-- JavaScript `str.split(sep)` for a one-element separator:
`List.splitOnP` with the equality predicate. -/
def splitSep {α : Type} [BEq α] (sep : α) (l : List α) : List (List α) :=
  l.splitOnP (· == sep)

theorem splitSep_nil {α : Type} [BEq α] (sep : α) : splitSep sep [] = [[]] := rfl

theorem splitSep_single {α : Type} [BEq α] [LawfulBEq α] (sep : α) (l : List α)
    (h : ∀ c ∈ l, c ≠ sep) : splitSep sep l = [l] := by
  apply List.splitOnP_eq_single
  intro x hx
  simpa using h x hx

theorem splitSep_first {α : Type} [BEq α] [LawfulBEq α] (sep : α) (l rest : List α)
    (h : ∀ c ∈ l, c ≠ sep) :
    splitSep sep (l ++ sep :: rest) = l :: splitSep sep rest := by
  apply List.splitOnP_first
  · intro x hx
    simpa using h x hx
  · simp

theorem splitSep_ne_nil {α : Type} [BEq α] (sep : α) (l : List α) :
    splitSep sep l ≠ [] := List.splitOnP_ne_nil _ l

/-! ## Hex encoding (`Buffer.prototype.toString("hex")` / `Buffer.from(_, "hex")`) -/

/-- Code unit of the lowercase hex digit for a value `n < 16`
(Node emits lowercase hex). -/
def hexDigitCode (n : Nat) : Nat :=
  if n < 10 then 48 + n else 87 + n

/-- Model of `buf.toString("hex")`: two lowercase hex digits per byte. -/
def hexEncode (bs : Bytes) : Str :=
  bs.flatMap fun b => [hexDigitCode (b.val / 16), hexDigitCode (b.val % 16)]

/-- Value of one hex digit code unit (upper- or lowercase), or `none`. -/
def hexVal (c : Nat) : Option Nat :=
  if 48 ≤ c ∧ c ≤ 57 then some (c - 48)
  else if 97 ≤ c ∧ c ≤ 102 then some (c - 87)
  else if 65 ≤ c ∧ c ≤ 70 then some (c - 55)
  else none

/-- Model of `Buffer.from(str, "hex")`: consume pairs of hex digits, stopping at the
first invalid character or unpaired trailing digit (Node semantics). -/
def hexDecode : Str → Bytes
  | c1 :: c2 :: rest =>
    match hexVal c1, hexVal c2 with
    | some h, some l => ⟨(h % 16) * 16 + l % 16, by omega⟩ :: hexDecode rest
    | _, _ => []
  | _ => []

theorem hexDigitCode_ne_colon (n : Nat) : hexDigitCode n ≠ colon := by
  unfold hexDigitCode colon
  split <;> omega

theorem hexEncode_ne_colon (bs : Bytes) : ∀ c ∈ hexEncode bs, c ≠ colon := by
  intro c hc
  unfold hexEncode at hc
  simp only [List.mem_flatMap, List.mem_cons, List.not_mem_nil, or_false] at hc
  obtain ⟨b, _, hc⟩ := hc
  rcases hc with rfl | rfl <;> exact hexDigitCode_ne_colon _

theorem hexVal_hexDigitCode (n : Nat) (h : n < 16) : hexVal (hexDigitCode n) = some n := by
  unfold hexDigitCode
  rcases Nat.lt_or_ge n 10 with h10 | h10
  · rw [if_pos h10]
    unfold hexVal
    rw [if_pos (by omega)]
    congr 1
    omega
  · rw [if_neg (by omega)]
    unfold hexVal
    rw [if_neg (by omega), if_pos (by omega)]
    congr 1
    omega

theorem hexDecode_hexEncode (bs : Bytes) : hexDecode (hexEncode bs) = bs := by
  induction bs with
  | nil => rfl
  | cons b rest ih =>
    have h1 : b.val / 16 < 16 := by omega
    have h2 : b.val % 16 < 16 := by omega
    show hexDecode (hexDigitCode (b.val / 16) :: hexDigitCode (b.val % 16) :: hexEncode rest) = _
    unfold hexDecode
    rw [hexVal_hexDigitCode _ h1, hexVal_hexDigitCode _ h2]
    simp only [ih]
    congr 1
    apply Fin.ext
    show (b.val / 16 % 16) * 16 + b.val % 16 % 16 = b.val
    omega

/-! ## Abstract primitives

`Prims` packages the cryptographic and serialization primitives the service
composes: the AES-256-GCM cipher core, PBKDF2 key derivation, and
`JSON.stringify`/`JSON.parse` on the two persisted record types, each with
exactly the laws the TypeScript runtime guarantees. -/

/-- The retention policy discriminator of a `SecretRequest`
(`retentionType: "view" | "time"`). -/
inductive RetentionType
  | view
  | time
deriving DecidableEq, Repr

/-- Model of `status: "pending" | "submitted"` of a `SecretRequest`. -/
inductive RequestStatus
  | pending
  | submitted
deriving DecidableEq, Repr

/-- Model of `SecretRequest` from `src/server/types.ts`. -/
structure SecretRequest where
  requestId : Str
  requestorEmail : Str
  description : Str
  retentionType : RetentionType
  retentionValue : Int
  status : RequestStatus
  createdAt : Int
  submittedAt : Option Int
deriving DecidableEq, Repr

/-- Model of `SubmittedSecret` from `src/server/types.ts`. -/
structure SubmittedSecret where
  retrievalId : Str
  requestId : Str
  encryptedSecret : Str
  passwordHash : Str
  viewsRemaining : Option Int
  expiresAt : Int
  createdAt : Int
deriving DecidableEq, Repr

/-- Abstracted runtime primitives together with their guaranteed laws. -/
structure Prims where
  /-- GCM core: key → iv → utf8 plaintext → ciphertext bytes. -/
  aeadEnc : Bytes → Bytes → Str → Bytes
  /-- GCM authentication tag for the same inputs. -/
  aeadTag : Bytes → Bytes → Str → Bytes
  /-- GCM decryption: key → iv → tag → ciphertext → plaintext or auth failure. -/
  aeadDec : Bytes → Bytes → Bytes → Bytes → Option Str
  /-- Decryption inverts encryption under matching key, iv and tag. -/
  aead_dec_enc : ∀ k iv d, aeadDec k iv (aeadTag k iv d) (aeadEnc k iv d) = some d
  /-- PBKDF2-SHA256, 100000 iterations: password → salt → derived key. -/
  kdf : Str → Bytes → Bytes
  /-- The derived key always has `KEY_LENGTH = 32` bytes. -/
  kdf_len : ∀ p s, (kdf p s).length = 32
  /-- Model of `JSON.stringify` on a `SubmittedSecret`. -/
  serializeSecret : SubmittedSecret → Str
  /-- Model of `JSON.parse` specialised to `SubmittedSecret`. -/
  parseSecret : Str → Option SubmittedSecret
  parseSecret_serializeSecret : ∀ r, parseSecret (serializeSecret r) = some r
  /-- Model of `JSON.stringify` on a `SecretRequest`. -/
  serializeRequest : SecretRequest → Str
  /-- Model of `JSON.parse` specialised to `SecretRequest`. -/
  parseRequest : Str → Option SecretRequest
  parseRequest_serializeRequest : ∀ r, parseRequest (serializeRequest r) = some r

/-! ## CryptoService (`src/server/crypto.service.ts`)

Each method takes its random bytes (`crypto.randomBytes`) explicitly. -/

/-- Error message of `decryptWithKey` on a malformed envelope
(`"Invalid encrypted data format"`). -/
def invalidFormatMsg : Str := strLit "Invalid encrypted data format"

/-- Node's error message when GCM authentication fails in `decipher.final`. -/
def gcmAuthFailMsg : Str := strLit "Unsupported state or unable to authenticate data"

/-- Node's `TypeError` message when `Buffer.from` receives `undefined`
(missing field after destructuring the stored hash). -/
def bufferTypeErrMsg : Str := strLit "The first argument must be of type string"

/-- Node's `RangeError` message when `crypto.timingSafeEqual` receives
buffers of different lengths. -/
def timingSafeLenErrMsg : Str := strLit "Input buffers must have the same byte length"

/-- Model of `JSON.parse` failure on a non-JSON string. -/
def jsonParseErrMsg : Str := strLit "Unexpected token in JSON"

/-- Model of `encryptWithKey`: fresh `iv`, AES-256-GCM, result `iv:tag:encrypted`
with all three fields hex encoded. -/
def encryptWithKey (P : Prims) (data : Str) (key : Bytes) (iv : Bytes) : Str :=
  hexEncode iv ++ colon :: (hexEncode (P.aeadTag key iv data) ++
    colon :: hexEncode (P.aeadEnc key iv data))

/-- Model of `decryptWithKey`: split on `':'`, require exactly three parts,
decode and authenticate. -/
def decryptWithKey (P : Prims) (encryptedData : Str) (key : Bytes) : Except Str Str :=
  let parts := splitSep colon encryptedData
  if parts.length ≠ 3 then .error invalidFormatMsg
  else
    let iv := hexDecode (parts.headD [])
    let tag := hexDecode (parts.getD 1 [])
    let encrypted := hexDecode (parts.getD 2 [])
    match P.aeadDec key iv tag encrypted with
    | some d => .ok d
    | none => .error gcmAuthFailMsg

/-- Model of `encryptWithSystemKey`: layer-1 encryption with the 32-byte system key. -/
def encryptWithSystemKey (P : Prims) (systemKey : Bytes) (data : Str) (iv : Bytes) : Str :=
  encryptWithKey P data systemKey iv

/-- Model of `decryptWithSystemKey`: layer-1 decryption with the system key. -/
def decryptWithSystemKey (P : Prims) (systemKey : Bytes) (encryptedData : Str) : Except Str Str :=
  decryptWithKey P encryptedData systemKey

/-- Model of `hashPassword`: fresh salt, derived hash, stored as `salt:hash` (hex). -/
def hashPassword (P : Prims) (password : Str) (salt : Bytes) : Str :=
  hexEncode salt ++ colon :: hexEncode (P.kdf password salt)

/-- Model of `verifyPassword`: split the stored hash, rederive, compare with
`crypto.timingSafeEqual`.  A missing second field makes `Buffer.from`
throw; a length mismatch makes `timingSafeEqual` throw. -/
def verifyPassword (P : Prims) (password storedHash : Str) : Except Str Bool :=
  let parts := splitSep colon storedHash
  match parts[1]? with
  | none => .error bufferTypeErrMsg
  | some hashHex =>
    let salt := hexDecode (parts.headD [])
    let hash := hexDecode hashHex
    let derivedHash := P.kdf password salt
    if hash.length = derivedHash.length then .ok (hash = derivedHash)
    else .error timingSafeLenErrMsg

/-- Model of `encryptWithPassword`: derive a key from the password and a fresh salt,
encrypt, prepend the salt (`salt:iv:tag:encrypted`), and independently hash
the password with its own fresh salt. -/
def encryptWithPassword (P : Prims) (data password : Str)
    (salt iv hashSalt : Bytes) : Str × Str :=
  let key := P.kdf password salt
  let encrypted := encryptWithKey P data key iv
  let encryptedWithSalt := hexEncode salt ++ colon :: encrypted
  let passwordHash := hashPassword P password hashSalt
  (encryptedWithSalt, passwordHash)

/-- Model of `decryptWithPassword`: split off the leading salt (≥ 4 parts required),
rederive the key, decrypt the rejoined remainder. -/
def decryptWithPassword (P : Prims) (encryptedData password : Str) : Except Str Str :=
  let parts := splitSep colon encryptedData
  if parts.length < 4 then .error invalidFormatMsg
  else
    let salt := hexDecode (parts.headD [])
    let encryptedPayload := List.intercalate [colon] parts.tail
    let key := P.kdf password salt
    decryptWithKey P encryptedPayload key

/-- Model of `dualEncrypt`: password layer first, then the system key layer. -/
def dualEncrypt (P : Prims) (systemKey : Bytes) (data password : Str)
    (salt iv hashSalt ivSystem : Bytes) : Str × Str :=
  let pe := encryptWithPassword P data password salt iv hashSalt
  (encryptWithSystemKey P systemKey pe.1 ivSystem, pe.2)

/-- Model of `dualDecrypt`: system key layer first, then the password layer. -/
def dualDecrypt (P : Prims) (systemKey : Bytes) (encryptedData password : Str) :
    Except Str Str :=
  match decryptWithSystemKey P systemKey encryptedData with
  | .error e => .error e
  | .ok systemDecrypted => decryptWithPassword P systemDecrypted password

/-! ## Round-trip lemmas for the cipher layers -/

theorem decryptWithKey_encryptWithKey (P : Prims) (data : Str) (key iv : Bytes) :
    decryptWithKey P (encryptWithKey P data key iv) key = .ok data := by
  unfold decryptWithKey encryptWithKey
  rw [splitSep_first colon _ _ (hexEncode_ne_colon iv),
    splitSep_first colon _ _ (hexEncode_ne_colon _),
    splitSep_single colon _ (hexEncode_ne_colon _)]
  simp only [List.length_cons, List.length_nil, List.headD_cons, List.getD_cons_succ,
    List.getD_cons_zero, hexDecode_hexEncode]
  rw [if_neg (by omega)]
  rw [P.aead_dec_enc]

theorem intercalate_three {α : Type} (x : α) (a b c : List α) :
    List.intercalate [x] [a, b, c] = a ++ x :: (b ++ x :: c) := by
  simp [List.intercalate, List.intersperse]

theorem decryptWithPassword_encryptWithPassword (P : Prims) (data password : Str)
    (salt iv hashSalt : Bytes) :
    decryptWithPassword P (encryptWithPassword P data password salt iv hashSalt).1
      password = .ok data := by
  unfold decryptWithPassword encryptWithPassword encryptWithKey
  simp only []
  rw [splitSep_first colon _ _ (hexEncode_ne_colon salt),
    splitSep_first colon _ _ (hexEncode_ne_colon iv),
    splitSep_first colon _ _ (hexEncode_ne_colon _),
    splitSep_single colon _ (hexEncode_ne_colon _)]
  simp only [List.length_cons, List.length_nil, List.headD_cons, List.tail_cons,
    hexDecode_hexEncode]
  rw [if_neg (by omega), intercalate_three]
  exact decryptWithKey_encryptWithKey P data (P.kdf password salt) iv

theorem dualDecrypt_dualEncrypt (P : Prims) (systemKey : Bytes) (data password : Str)
    (salt iv hashSalt ivSystem : Bytes) :
    dualDecrypt P systemKey
      (dualEncrypt P systemKey data password salt iv hashSalt ivSystem).1 password =
      .ok data := by
  unfold dualDecrypt dualEncrypt encryptWithSystemKey decryptWithSystemKey
  simp only []
  rw [decryptWithKey_encryptWithKey]
  exact decryptWithPassword_encryptWithPassword P data password salt iv hashSalt

theorem verifyPassword_hashPassword (P : Prims) (password : Str) (salt : Bytes) :
    verifyPassword P password (hashPassword P password salt) = .ok true := by
  unfold verifyPassword hashPassword
  rw [splitSep_first colon _ _ (hexEncode_ne_colon salt),
    splitSep_single colon _ (hexEncode_ne_colon _)]
  simp only [List.getElem?_cons_succ, List.getElem?_cons_zero, List.headD_cons,
    hexDecode_hexEncode]
  simp

/-! ## TTL key-value store (the Redis boundary of `redis.service.ts`)

The store is an association list from keys to a value plus the remaining
TTL that `client.ttl(key)` would report.  Time passage and eviction are
not modelled; expiry of secrets is re-checked explicitly by the service
against the `expiresAt` field, which is what the claims are about. -/

/-- One stored value together with its remaining TTL in seconds
(what `client.ttl` reports for the key). -/
structure StoreEntry where
  value : Str
  ttl : Int
deriving DecidableEq, Repr

/-- The TTL key-value store. -/
abbrev Store := List (Str × StoreEntry)

/-- Model of `client.get(key)`. -/
def storeGet (key : Str) (s : Store) : Option StoreEntry :=
  (s.find? fun p => p.1 = key).map (·.2)

/-- Model of `client.set(key, value, { EX: ttl })`: upsert with expiry. -/
def storeSet (key : Str) (value : Str) (ttl : Int) (s : Store) : Store :=
  (key, ⟨value, ttl⟩) :: s.filter fun p => ¬ p.1 = key

/-- Model of `client.del(key)`. -/
def storeDel (key : Str) (s : Store) : Store :=
  s.filter fun p => ¬ p.1 = key

theorem storeGet_storeSet_self (key value : Str) (ttl : Int) (s : Store) :
    storeGet key (storeSet key value ttl s) = some ⟨value, ttl⟩ := by
  simp [storeGet, storeSet]

theorem storeGet_storeDel_self (key : Str) (s : Store) :
    storeGet key (storeDel key s) = none := by
  unfold storeGet storeDel
  induction s with
  | nil => rfl
  | cons p rest ih =>
    by_cases h : p.1 = key
    · simp [List.filter, h, ih]
    · simp [List.filter, h, ih]

/-! ## RedisService (lifecycle manager) -/

/-- Model of `MAX_EXPIRY_DAYS` from `redis.service.ts`. -/
def MAX_EXPIRY_DAYS : Int := 10

/-- Model of `SECONDS_PER_DAY` from `redis.service.ts`. -/
def SECONDS_PER_DAY : Int := 86400

/-- Model of `calculateTTL(retentionType, retentionValue)`: time-based retention is
capped at `MAX_EXPIRY_DAYS`; view-based always uses the maximum. -/
def calculateTTL (retentionType : RetentionType) (retentionValue : Int) : Int :=
  match retentionType with
  | .time => min retentionValue MAX_EXPIRY_DAYS * SECONDS_PER_DAY
  | .view => MAX_EXPIRY_DAYS * SECONDS_PER_DAY

/-- The Redis key `request:${requestId}`. -/
def requestKey (requestId : Str) : Str := strLit "request:" ++ requestId

/-- The Redis key `secret:${retrievalId}`. -/
def secretKey (retrievalId : Str) : Str := strLit "secret:" ++ retrievalId

/-- Model of `saveSecretRequest(request)`: serialize, encrypt with the system key,
store under `request:<id>` with the calculated TTL.  `iv` stands for the
fresh random iv of `encryptWithSystemKey`. -/
def saveSecretRequest (P : Prims) (systemKey : Bytes) (request : SecretRequest)
    (iv : Bytes) (s : Store) : Store :=
  let key := requestKey request.requestId
  let encrypted := encryptWithSystemKey P systemKey (P.serializeRequest request) iv
  let ttl := calculateTTL request.retentionType request.retentionValue
  storeSet key encrypted ttl s

/-- Model of `getSecretRequest(requestId)`: fetch, decrypt with the system key,
parse.  Absence is `ok none`; a decryption or parse failure propagates as
a thrown error. -/
def getSecretRequest (P : Prims) (systemKey : Bytes) (requestId : Str) (s : Store) :
    Except Str (Option SecretRequest) :=
  match storeGet (requestKey requestId) s with
  | none => .ok none
  | some entry =>
    match decryptWithSystemKey P systemKey entry.value with
    | .error e => .error e
    | .ok data =>
      match P.parseRequest data with
      | none => .error jsonParseErrMsg
      | some request => .ok (some request)

/-- Error message `"Request not found"` thrown by `submitSecret`. -/
def requestNotFoundMsg : Str := strLit "Request not found"

/-- Error message `"Request already fulfilled"` thrown by `submitSecret`. -/
def requestFulfilledMsg : Str := strLit "Request already fulfilled"

/-- Model of `submitSecret(requestId, secret, password, retrievalId)`: load the
request, refuse if absent or already fulfilled, dual-encrypt the secret,
store the `SubmittedSecret` under `secret:<retrievalId>`, then mark the
request submitted and save it back.  `now` is `Date.now()`; the `Bytes`
arguments are the fresh random salts/ivs consumed by the crypto layer. -/
def submitSecret (P : Prims) (systemKey : Bytes) (requestId secret password retrievalId : Str)
    (now : Int) (salt iv hashSalt ivSystem ivSecret ivRequest : Bytes) (s : Store) :
    Except Str Unit × Store :=
  match getSecretRequest P systemKey requestId s with
  | .error e => (.error e, s)
  | .ok none => (.error requestNotFoundMsg, s)
  | .ok (some request) =>
    if request.status = .submitted then (.error requestFulfilledMsg, s)
    else
      let de := dualEncrypt P systemKey secret password salt iv hashSalt ivSystem
      let submittedSecret : SubmittedSecret :=
        { retrievalId := retrievalId
          requestId := requestId
          encryptedSecret := de.1
          passwordHash := de.2
          viewsRemaining :=
            if request.retentionType = .view then some request.retentionValue else none
          expiresAt :=
            now + calculateTTL request.retentionType request.retentionValue * 1000
          createdAt := now }
      let ttl := calculateTTL request.retentionType request.retentionValue
      let s1 := storeSet (secretKey retrievalId)
        (encryptWithSystemKey P systemKey (P.serializeSecret submittedSecret) ivSecret) ttl s
      let request' : SecretRequest :=
        { request with status := .submitted, submittedAt := some now }
      (.ok (), saveSecretRequest P systemKey request' ivRequest s1)

deriving instance DecidableEq for Except

/-- The combined absent-or-wrong-password error message of `retrieveSecret`
(`"Invalid password or secret not found"`). -/
def invalidOrNotFoundMsg : Str := strLit "Invalid password or secret not found"

/-- Model of `"Secret has expired"` thrown by `retrieveSecret` on the expiry path. -/
def secretExpiredMsg : Str := strLit "Secret has expired"

/-- Artificial-delay events that `retrieveSecret` can await. -/
inductive ArtificialDelay
  /-- The `setTimeout(50 + Math.random() * 50)` sleep on the absent path. -/
  | jitter
  /-- The catch-handler sleep topping elapsed time up to the 100 ms floor. -/
  | floorPad
deriving DecidableEq, Repr

/-- Observable crypto-operation events of one `retrieveSecret` execution,
recording each *return* of `verifyPassword` and each *invocation* of
`dualDecrypt`. -/
inductive CryptoEvent
  /-- Model of `verifyPassword` returned with this result. -/
  | verify (result : Bool)
  /-- Model of `dualDecrypt` was invoked on the stored envelope. -/
  | passwordDecrypt
deriving DecidableEq, Repr

/-- Result bundle of one `retrieveSecret` execution. -/
structure RetrieveOutcome where
  /-- The returned `{ secret, viewsRemaining? }` or the thrown error message. -/
  result : Except Str (Str × Option Int)
  /-- The store after the call. -/
  store : Store
  /-- Artificial delays awaited, in order. -/
  delays : List ArtificialDelay
  /-- Crypto events, in order. -/
  events : List CryptoEvent
deriving DecidableEq, Repr

/-- The `try` block of `retrieveSecret` (everything before the catch
handler).  `ivUpdate` is the fresh iv used if the decremented record is
re-encrypted and persisted. -/
def retrieveSecretTry (P : Prims) (systemKey : Bytes) (s : Store) (now : Int)
    (retrievalId password : Str) (ivUpdate : Bytes) : RetrieveOutcome :=
  let key := secretKey retrievalId
  match storeGet key s with
  | none => ⟨.error invalidOrNotFoundMsg, s, [.jitter], []⟩
  | some entry =>
    match decryptWithSystemKey P systemKey entry.value with
    | .error e => ⟨.error e, s, [], []⟩
    | .ok data =>
      match P.parseSecret data with
      | none => ⟨.error jsonParseErrMsg, s, [], []⟩
      | some submittedSecret =>
        if submittedSecret.expiresAt < now then
          ⟨.error secretExpiredMsg, storeDel key s, [], []⟩
        else
          match verifyPassword P password submittedSecret.passwordHash with
          | .error e => ⟨.error e, s, [], []⟩
          | .ok false => ⟨.error invalidOrNotFoundMsg, s, [], [.verify false]⟩
          | .ok true =>
            match dualDecrypt P systemKey submittedSecret.encryptedSecret password with
            | .error e => ⟨.error e, s, [], [.verify true, .passwordDecrypt]⟩
            | .ok secret =>
              match submittedSecret.viewsRemaining with
              | none => ⟨.ok (secret, none), s, [], [.verify true, .passwordDecrypt]⟩
              | some n =>
                if n - 1 ≤ 0 then
                  ⟨.ok (secret, some 0), storeDel key s, [],
                    [.verify true, .passwordDecrypt]⟩
                else
                  let updated := { submittedSecret with viewsRemaining := some (n - 1) }
                  let newValue :=
                    encryptWithSystemKey P systemKey (P.serializeSecret updated) ivUpdate
                  let newTtl := if entry.ttl > 0 then entry.ttl
                    else MAX_EXPIRY_DAYS * SECONDS_PER_DAY
                  ⟨.ok (secret, some (n - 1)), storeSet key newValue newTtl s, [],
                    [.verify true, .passwordDecrypt]⟩

/-- Model of `retrieveSecret(retrievalId, password)`: the `try` block plus the catch
handler, which pads every thrown error up to the 100 ms floor before
rethrowing.  The successful return does not pass through the handler. -/
def retrieveSecret (P : Prims) (systemKey : Bytes) (s : Store) (now : Int)
    (retrievalId password : Str) (ivUpdate : Bytes) : RetrieveOutcome :=
  let out := retrieveSecretTry P systemKey s now retrievalId password ivUpdate
  match out.result with
  | .ok _ => out
  | .error _ => { out with delays := out.delays ++ [.floorPad] }

/-- The `catch` arm of `app.post("/api/secrets/:retrievalId")` in the HTTP
layer: maps a thrown error message to the HTTP status of the response. -/
def retrieveErrorHttpStatus (message : Str) : Nat :=
  if message = strLit "Secret not found or expired" then 404
  else if message = strLit "Invalid password" then 401
  else if message = strLit "Secret has expired" then 410
  else 500

theorem decryptWithSystemKey_encryptWithSystemKey (P : Prims) (systemKey : Bytes)
    (data : Str) (iv : Bytes) :
    decryptWithSystemKey P systemKey (encryptWithSystemKey P systemKey data iv) =
      .ok data :=
  decryptWithKey_encryptWithKey P data systemKey iv

/-! ## Claim theorems -/

/-- C1: Dual-encryption round trip — for every plaintext, password and
valid 32-byte system key, decrypting the `encrypted` component of
`dualEncrypt` with the same password under the same service returns
exactly the plaintext, whatever fresh salts and ivs the randomness
supplies. -/
theorem C1_dual_round_trip (P : Prims) (systemKey : Bytes)
    (_hkey : systemKey.length = 32) (data password : Str)
    (salt iv hashSalt ivSystem : Bytes) :
    dualDecrypt P systemKey
      (dualEncrypt P systemKey data password salt iv hashSalt ivSystem).1 password =
      .ok data :=
  dualDecrypt_dualEncrypt P systemKey data password salt iv hashSalt ivSystem

/-- C3: TTL ceiling invariant — for every retention type and requested
value, `calculateTTL` is at most `MAX_EXPIRY_DAYS` days of seconds, and
time-based retention yields exactly `min(requested, MAX_EXPIRY_DAYS)`
days of seconds. -/
theorem C3_ttl_ceiling (t : RetentionType) (v : Int) :
    calculateTTL t v ≤ MAX_EXPIRY_DAYS * SECONDS_PER_DAY ∧
      calculateTTL .time v = min v MAX_EXPIRY_DAYS * SECONDS_PER_DAY := by
  refine ⟨?_, rfl⟩
  cases t with
  | time =>
    have h : min v MAX_EXPIRY_DAYS ≤ MAX_EXPIRY_DAYS := min_le_right _ _
    calc calculateTTL .time v = min v MAX_EXPIRY_DAYS * SECONDS_PER_DAY := rfl
      _ ≤ MAX_EXPIRY_DAYS * SECONDS_PER_DAY := by
          apply mul_le_mul_of_nonneg_right h
          norm_num [SECONDS_PER_DAY]
  | view => exact le_refl _

/-- C10: view-limited TTL is always the maximum — `calculateTTL` ignores
the view count entirely for view-based retention and returns
`MAX_EXPIRY_DAYS * SECONDS_PER_DAY`, i.e. 10 days = 864000 seconds,
for every requested value. -/
theorem C10_view_ttl_max (v : Int) :
    calculateTTL .view v = MAX_EXPIRY_DAYS * SECONDS_PER_DAY ∧
      calculateTTL .view v = 864000 := by
  norm_num [calculateTTL, MAX_EXPIRY_DAYS, SECONDS_PER_DAY]

/-- C2: View exhaustion — under a well-formed stored record with the
correct password before expiry: with `viewsRemaining = 1` the record is
deleted and the plaintext is still returned with `viewsRemaining = 0`;
with `viewsRemaining = n > 1` the decremented counter is re-encrypted and
persisted with the remaining TTL; retrieving any absent record yields the
not-found outcome. -/
theorem C2_view_exhaustion (P : Prims) (systemKey : Bytes) (s : Store) (now : Int)
    (rid password secret : Str) (rec : SubmittedSecret) (iv ivUpdate : Bytes) (t : Int)
    (hashSalt salt ivInner encHashSalt ivOuter : Bytes)
    (hget : storeGet (secretKey rid) s =
      some ⟨encryptWithSystemKey P systemKey (P.serializeSecret rec) iv, t⟩)
    (hnow : ¬ rec.expiresAt < now)
    (hhash : rec.passwordHash = hashPassword P password hashSalt)
    (henc : rec.encryptedSecret =
      (dualEncrypt P systemKey secret password salt ivInner encHashSalt ivOuter).1) :
    (rec.viewsRemaining = some 1 →
      (retrieveSecret P systemKey s now rid password ivUpdate).result =
          .ok (secret, some 0) ∧
        storeGet (secretKey rid)
          (retrieveSecret P systemKey s now rid password ivUpdate).store = none) ∧
    (∀ n : Int, rec.viewsRemaining = some n → 1 < n →
      (retrieveSecret P systemKey s now rid password ivUpdate).result =
          .ok (secret, some (n - 1)) ∧
        storeGet (secretKey rid)
          (retrieveSecret P systemKey s now rid password ivUpdate).store =
          some ⟨encryptWithSystemKey P systemKey
              (P.serializeSecret { rec with viewsRemaining := some (n - 1) }) ivUpdate,
            if t > 0 then t else MAX_EXPIRY_DAYS * SECONDS_PER_DAY⟩) ∧
    (∀ (s2 : Store) (now2 : Int) (password2 : Str) (iv2 : Bytes),
      storeGet (secretKey rid) s2 = none →
      (retrieveSecret P systemKey s2 now2 rid password2 iv2).result =
        .error invalidOrNotFoundMsg) := by
  refine ⟨?_, ?_, ?_⟩
  · intro hviews
    simp only [retrieveSecret, retrieveSecretTry, hget,
      decryptWithSystemKey_encryptWithSystemKey, P.parseSecret_serializeSecret,
      if_neg hnow, hhash, verifyPassword_hashPassword, henc, dualDecrypt_dualEncrypt,
      hviews]
    norm_num [storeGet_storeDel_self]
  · intro n hviews hn
    simp only [retrieveSecret, retrieveSecretTry, hget,
      decryptWithSystemKey_encryptWithSystemKey, P.parseSecret_serializeSecret,
      if_neg hnow, hhash, verifyPassword_hashPassword, henc, dualDecrypt_dualEncrypt,
      hviews]
    rw [if_neg (by omega)]
    simp only [storeGet_storeSet_self]
    exact ⟨trivial, trivial⟩
  · intro s2 now2 password2 iv2 habsent
    simp only [retrieveSecret, retrieveSecretTry, habsent]

/-- C6: Expiry with deletion — whenever `retrieveSecret` loads a record
whose `expiresAt` lies strictly in the past, the record is deleted from
the store and the expired error is raised; no plaintext is returned. -/
theorem C6_expiry_deletes (P : Prims) (systemKey : Bytes) (s : Store) (now : Int)
    (rid password : Str) (rec : SubmittedSecret) (iv ivUpdate : Bytes) (t : Int)
    (hget : storeGet (secretKey rid) s =
      some ⟨encryptWithSystemKey P systemKey (P.serializeSecret rec) iv, t⟩)
    (hexp : rec.expiresAt < now) :
    (retrieveSecret P systemKey s now rid password ivUpdate).result =
        .error secretExpiredMsg ∧
      storeGet (secretKey rid)
        (retrieveSecret P systemKey s now rid password ivUpdate).store = none := by
  simp only [retrieveSecret, retrieveSecretTry, hget,
    decryptWithSystemKey_encryptWithSystemKey, P.parseSecret_serializeSecret,
    if_pos hexp]
  exact ⟨trivial, storeGet_storeDel_self _ _⟩

/-- C7: Never decrypt before verify — in every execution of
`retrieveSecret`, whenever the password-layer decryption `dualDecrypt` is
invoked, the event trace is exactly a `verifyPassword` return of `true`
immediately followed by that invocation: on every path where verification
fails or is never reached, `dualDecrypt` is not invoked. -/
theorem C7_verify_before_decrypt (P : Prims) (systemKey : Bytes) (s : Store)
    (now : Int) (rid password : Str) (ivUpdate : Bytes)
    (hdec : CryptoEvent.passwordDecrypt ∈
      (retrieveSecret P systemKey s now rid password ivUpdate).events) :
    (retrieveSecret P systemKey s now rid password ivUpdate).events =
      [CryptoEvent.verify true, CryptoEvent.passwordDecrypt] := by
  unfold retrieveSecret retrieveSecretTry at hdec ⊢
  rcases h1 : storeGet (secretKey rid) s with _ | entry <;> simp only [h1] at hdec ⊢
  · simp at hdec
  rcases h2 : decryptWithSystemKey P systemKey entry.value with e | data <;>
    simp only [h2] at hdec ⊢
  · simp at hdec
  rcases h3 : P.parseSecret data with _ | rec <;> simp only [h3] at hdec ⊢
  · simp at hdec
  by_cases h4 : rec.expiresAt < now <;> simp only [if_pos, if_neg, h4] at hdec ⊢
  · simp at hdec
  rcases h5 : verifyPassword P password rec.passwordHash with e | b <;>
    simp only [h5] at hdec ⊢
  · simp at hdec
  rcases b with _ | _
  · simp at hdec
  rcases h6 : dualDecrypt P systemKey rec.encryptedSecret password with e | secret <;>
    simp only [h6] at hdec ⊢
  · rfl
  rcases h7 : rec.viewsRemaining with _ | n <;> simp only [h7] at hdec ⊢
  · rfl
  by_cases h8 : n - 1 ≤ 0 <;> simp only [if_pos, if_neg, h8] at hdec ⊢ <;> rfl

/-! ## A concrete executable instance of the primitives

The claims are proved for every `Prims`; the witnesses instantiate them
with this executable toy instance (an injective length-prefixed
serializer and a byte-stuffing codec standing in for the cipher core,
satisfying exactly the laws of `Prims`). -/

/-- Length-prefixed string field. -/
def encListF (l : Str) : Str := l.length :: l

/-- Sign-and-magnitude integer field. -/
def encIntF (i : Int) : Str := if i < 0 then [1, i.natAbs] else [0, i.natAbs]

/-- Tagged optional integer field. -/
def encOptIntF : Option Int → Str
  | none => [0]
  | some i => 1 :: encIntF i

/-- Retention-type field. -/
def encRetentionF : RetentionType → Str
  | .view => [0]
  | .time => [1]

/-- Status field. -/
def encStatusF : RequestStatus → Str
  | .pending => [0]
  | .submitted => [1]

/-- Read back a length-prefixed string field. -/
def readListF : Str → Option (Str × Str)
  | n :: rest => if n ≤ rest.length then some (rest.take n, rest.drop n) else none
  | [] => none

/-- Read back a sign-and-magnitude integer field. -/
def readIntF : Str → Option (Int × Str)
  | 0 :: m :: rest => some ((m : Int), rest)
  | 1 :: m :: rest => some (-(m : Int), rest)
  | _ => none

/-- Read back an optional integer field. -/
def readOptIntF : Str → Option (Option Int × Str)
  | 0 :: rest => some (none, rest)
  | 1 :: rest => (readIntF rest).map fun p => (some p.1, p.2)
  | _ => none

/-- Read back a retention-type field. -/
def readRetentionF : Str → Option (RetentionType × Str)
  | 0 :: rest => some (.view, rest)
  | 1 :: rest => some (.time, rest)
  | _ => none

/-- Read back a status field. -/
def readStatusF : Str → Option (RequestStatus × Str)
  | 0 :: rest => some (.pending, rest)
  | 1 :: rest => some (.submitted, rest)
  | _ => none

theorem readListF_encListF (l r : Str) : readListF (encListF l ++ r) = some (l, r) := by
  show (if l.length ≤ (l ++ r).length then
      some ((l ++ r).take l.length, (l ++ r).drop l.length) else none) = some (l, r)
  rw [if_pos (by simp), List.take_left, List.drop_left]

theorem readIntF_encIntF (i : Int) (r : Str) : readIntF (encIntF i ++ r) = some (i, r) := by
  unfold encIntF
  by_cases h : i < 0
  · rw [if_pos h]
    show readIntF (1 :: i.natAbs :: r) = some (i, r)
    show some (-(i.natAbs : Int), r) = some (i, r)
    congr 1
    rw [Prod.mk.injEq]
    refine ⟨by omega, rfl⟩
  · rw [if_neg h]
    show readIntF (0 :: i.natAbs :: r) = some (i, r)
    show some ((i.natAbs : Int), r) = some (i, r)
    congr 1
    rw [Prod.mk.injEq]
    refine ⟨by omega, rfl⟩

theorem readOptIntF_encOptIntF (o : Option Int) (r : Str) :
    readOptIntF (encOptIntF o ++ r) = some (o, r) := by
  cases o with
  | none => rfl
  | some i =>
    show readOptIntF (1 :: (encIntF i ++ r)) = some (some i, r)
    show (readIntF (encIntF i ++ r)).map _ = some (some i, r)
    rw [readIntF_encIntF]
    rfl

theorem readRetentionF_encRetentionF (t : RetentionType) (r : Str) :
    readRetentionF (encRetentionF t ++ r) = some (t, r) := by
  cases t <;> rfl

theorem readStatusF_encStatusF (t : RequestStatus) (r : Str) :
    readStatusF (encStatusF t ++ r) = some (t, r) := by
  cases t <;> rfl

/-- Toy `JSON.stringify` for `SubmittedSecret`. -/
def serializeSecretToy (x : SubmittedSecret) : Str :=
  encListF x.retrievalId ++ encListF x.requestId ++ encListF x.encryptedSecret ++
    encListF x.passwordHash ++ encOptIntF x.viewsRemaining ++ encIntF x.expiresAt ++
    encIntF x.createdAt

/-- Toy `JSON.parse` for `SubmittedSecret`. -/
def parseSecretToy (s : Str) : Option SubmittedSecret := do
  let (retrievalId, s) ← readListF s
  let (requestId, s) ← readListF s
  let (encryptedSecret, s) ← readListF s
  let (passwordHash, s) ← readListF s
  let (viewsRemaining, s) ← readOptIntF s
  let (expiresAt, s) ← readIntF s
  let (createdAt, _) ← readIntF s
  pure ⟨retrievalId, requestId, encryptedSecret, passwordHash, viewsRemaining,
    expiresAt, createdAt⟩

theorem parseSecretToy_serializeSecretToy (x : SubmittedSecret) :
    parseSecretToy (serializeSecretToy x) = some x := by
  unfold parseSecretToy serializeSecretToy
  simp only [List.append_assoc]
  rw [← List.append_nil (encIntF x.createdAt)]
  simp only [readListF_encListF, readOptIntF_encOptIntF, readIntF_encIntF,
    Option.bind_eq_bind, Option.some_bind]
  rfl

/-- Toy `JSON.stringify` for `SecretRequest`. -/
def serializeRequestToy (x : SecretRequest) : Str :=
  encListF x.requestId ++ encListF x.requestorEmail ++ encListF x.description ++
    encRetentionF x.retentionType ++ encIntF x.retentionValue ++
    encStatusF x.status ++ encIntF x.createdAt ++ encOptIntF x.submittedAt

/-- Toy `JSON.parse` for `SecretRequest`. -/
def parseRequestToy (s : Str) : Option SecretRequest := do
  let (requestId, s) ← readListF s
  let (requestorEmail, s) ← readListF s
  let (description, s) ← readListF s
  let (retentionType, s) ← readRetentionF s
  let (retentionValue, s) ← readIntF s
  let (status, s) ← readStatusF s
  let (createdAt, s) ← readIntF s
  let (submittedAt, _) ← readOptIntF s
  pure ⟨requestId, requestorEmail, description, retentionType, retentionValue,
    status, createdAt, submittedAt⟩

theorem parseRequestToy_serializeRequestToy (x : SecretRequest) :
    parseRequestToy (serializeRequestToy x) = some x := by
  unfold parseRequestToy serializeRequestToy
  simp only [List.append_assoc]
  rw [← List.append_nil (encOptIntF x.submittedAt)]
  simp only [readListF_encListF, readOptIntF_encOptIntF, readIntF_encIntF,
    readRetentionF_encRetentionF, readStatusF_encStatusF,
    Option.bind_eq_bind, Option.some_bind]
  rfl

/-- The chunk terminator byte of the toy cipher codec. -/
def termByte : Byte := ⟨255, by omega⟩

/-- The filler byte of the toy cipher codec. -/
def fillByte : Byte := ⟨254, by omega⟩

/-- Encode one code unit as `n / 255` filler bytes plus the residue byte. -/
def encUnit (n : Nat) : Bytes :=
  List.replicate (n / 255) fillByte ++ [⟨n % 255, by omega⟩]

/-- Toy cipher core: terminator-separated unit chunks. -/
def toyEnc (d : Str) : Bytes := d.flatMap fun n => encUnit n ++ [termByte]

/-- Decode one chunk back to its code unit. -/
def decodeChunk (c : Bytes) : Option Nat :=
  c.getLast?.bind fun r =>
    if r.val < 255 ∧ c.dropLast.all (· == fillByte) then
      some (c.dropLast.length * 255 + r.val)
    else none

/-- Decode a list of chunks. -/
def decodeChunks : List Bytes → Option Str
  | [] => some []
  | c :: cs =>
    match decodeChunk c, decodeChunks cs with
    | some n, some t => some (n :: t)
    | _, _ => none

/-- Toy cipher core inverse. -/
def toyDec (bs : Bytes) : Option Str :=
  let parts := splitSep termByte bs
  if parts.getLast? = some [] then decodeChunks parts.dropLast else none

theorem encUnit_ne_termByte (n : Nat) : ∀ b ∈ encUnit n, b ≠ termByte := by
  intro b hb
  unfold encUnit at hb
  rcases List.mem_append.mp hb with h | h
  · rw [List.eq_of_mem_replicate h]
    intro heq
    exact absurd (congrArg Fin.val heq) (by norm_num [fillByte, termByte])
  · rw [List.mem_singleton.mp h]
    intro heq
    have := congrArg Fin.val heq
    simp only [termByte] at this
    omega

theorem decodeChunk_encUnit (n : Nat) : decodeChunk (encUnit n) = some n := by
  unfold decodeChunk encUnit
  rw [List.getLast?_concat, List.dropLast_concat, Option.some_bind]
  rw [if_pos ⟨by show n % 255 < 255; omega,
    by simp [List.all_eq_true, List.eq_of_mem_replicate]⟩]
  rw [List.length_replicate]
  congr 1
  show n / 255 * 255 + n % 255 = n
  omega

theorem splitSep_toyEnc (d : Str) :
    splitSep termByte (toyEnc d) = d.map encUnit ++ [[]] := by
  induction d with
  | nil => rfl
  | cons n rest ih =>
    show splitSep termByte ((encUnit n ++ [termByte]) ++ toyEnc rest) = _
    rw [List.append_assoc, List.singleton_append,
      splitSep_first termByte _ _ (encUnit_ne_termByte n), ih]
    rfl

theorem decodeChunks_map_encUnit (d : Str) :
    decodeChunks (d.map encUnit) = some d := by
  induction d with
  | nil => rfl
  | cons n rest ih =>
    show decodeChunks (encUnit n :: rest.map encUnit) = some (n :: rest)
    unfold decodeChunks
    rw [decodeChunk_encUnit, ih]

theorem toyDec_toyEnc (d : Str) : toyDec (toyEnc d) = some d := by
  unfold toyDec
  simp only [splitSep_toyEnc, List.getLast?_concat, List.dropLast_concat, if_pos]
  exact decodeChunks_map_encUnit d

/-- Toy PBKDF2: 32 copies of the password's first code unit. -/
def toyKdf (p : Str) (_salt : Bytes) : Bytes :=
  List.replicate 32 ⟨p.headD 0 % 256, by omega⟩

/-- The executable toy instance of all abstract primitives. -/
def toyPrims : Prims where
  aeadEnc := fun _ _ d => toyEnc d
  aeadTag := fun _ _ _ => []
  aeadDec := fun _ _ _ c => toyDec c
  aead_dec_enc := fun _ _ d => toyDec_toyEnc d
  kdf := toyKdf
  kdf_len := fun _ _ => List.length_replicate 32 _
  serializeSecret := serializeSecretToy
  parseSecret := parseSecretToy
  parseSecret_serializeSecret := parseSecretToy_serializeSecretToy
  serializeRequest := serializeRequestToy
  parseRequest := parseRequestToy
  parseRequest_serializeRequest := parseRequestToy_serializeRequestToy

/-- C4 (amended): conflated error signals — `retrieveSecret` raises the
single message `"Invalid password or secret not found"` both when the
record is absent and when password verification fails; the HTTP layer
recognises neither that message as 404 nor as 401, so both outcomes
produce the generic 500 response. -/
theorem C4_amended_conflated_error_signals (P : Prims) (systemKey : Bytes)
    (s s2 : Store) (now now2 : Int) (rid rid2 password password2 : Str)
    (iv ivU ivU2 : Bytes) (rec : SubmittedSecret) (t : Int)
    (habsent : storeGet (secretKey rid) s = none)
    (hget : storeGet (secretKey rid2) s2 =
      some ⟨encryptWithSystemKey P systemKey (P.serializeSecret rec) iv, t⟩)
    (hnow : ¬ rec.expiresAt < now2)
    (hverify : verifyPassword P password2 rec.passwordHash = .ok false) :
    (retrieveSecret P systemKey s now rid password ivU).result =
        .error invalidOrNotFoundMsg ∧
      (retrieveSecret P systemKey s2 now2 rid2 password2 ivU2).result =
        .error invalidOrNotFoundMsg ∧
      retrieveErrorHttpStatus invalidOrNotFoundMsg = 500 := by
  refine ⟨?_, ?_, ?_⟩
  · simp only [retrieveSecret, retrieveSecretTry, habsent]
  · simp only [retrieveSecret, retrieveSecretTry, hget,
      decryptWithSystemKey_encryptWithSystemKey, P.parseSecret_serializeSecret,
      if_neg hnow, hverify]
  · decide

/-- C8 (amended): a stored hash with no `':'` separator at all makes
`verifyPassword` raise (the `Buffer.from(undefined)` TypeError), and a
separator-bearing hash whose second field does not decode to the 32-byte
derived-key length raises the `timingSafeEqual` length error; a malformed
hash whose salt field is merely empty or junk, with a 32-byte hash field,
instead returns a boolean. -/
theorem C8_amended_malformed_hash (P : Prims) (password storedHash : Str) :
    ((∀ c ∈ storedHash, c ≠ colon) →
      verifyPassword P password storedHash = .error bufferTypeErrMsg) ∧
    (∀ hashHex, (splitSep colon storedHash)[1]? = some hashHex →
      (hexDecode hashHex).length ≠ 32 →
      verifyPassword P password storedHash = .error timingSafeLenErrMsg) := by
  constructor
  · intro hnosep
    unfold verifyPassword
    rw [splitSep_single colon storedHash hnosep]
    rfl
  · intro hashHex hget hlen
    unfold verifyPassword
    simp only [hget]
    rw [if_neg (by rw [P.kdf_len]; exact hlen)]

theorem retrieveSecretTry_ok_delays (P : Prims) (systemKey : Bytes) (s : Store)
    (now : Int) (rid password : Str) (ivUpdate : Bytes) (v : Str × Option Int)
    (h : (retrieveSecretTry P systemKey s now rid password ivUpdate).result = .ok v) :
    (retrieveSecretTry P systemKey s now rid password ivUpdate).delays = [] := by
  unfold retrieveSecretTry at h ⊢
  rcases h1 : storeGet (secretKey rid) s with _ | entry <;> simp only [h1] at h ⊢
  · simp at h
  rcases h2 : decryptWithSystemKey P systemKey entry.value with e | data <;>
    simp only [h2] at h ⊢
  rcases h3 : P.parseSecret data with _ | rec <;> simp only [h3] at h ⊢
  by_cases h4 : rec.expiresAt < now <;>
    simp only [h4, if_true, if_false, ite_true, ite_false] at h ⊢
  rcases h5 : verifyPassword P password rec.passwordHash with e | b <;>
    simp only [h5] at h ⊢
  rcases b with _ | _
  · rfl
  rcases h6 : dualDecrypt P systemKey rec.encryptedSecret password with e | secret <;>
    simp only [h6] at h ⊢
  rcases h7 : rec.viewsRemaining with _ | n <;> simp only [h7] at h ⊢
  by_cases h8 : n - 1 ≤ 0 <;>
    simp only [h8, if_true, if_false, ite_true, ite_false] at h ⊢

/-- C5 (amended): artificial delay on failure paths only — every
execution of `retrieveSecret` that throws awaits the catch handler's
pad-to-floor delay (the absent-record path additionally awaits the
50–100 ms jitter first), while every successful execution awaits no
artificial delay at all, so response time can distinguish success from
failure but not the failure causes from each other. -/
theorem C5_amended_padding_on_failure (P : Prims) (systemKey : Bytes) (s : Store)
    (now : Int) (rid password : Str) (ivUpdate : Bytes) :
    (∀ e, (retrieveSecret P systemKey s now rid password ivUpdate).result = .error e →
      ArtificialDelay.floorPad ∈
        (retrieveSecret P systemKey s now rid password ivUpdate).delays) ∧
    (storeGet (secretKey rid) s = none →
      (retrieveSecret P systemKey s now rid password ivUpdate).delays =
        [.jitter, .floorPad]) ∧
    (∀ v, (retrieveSecret P systemKey s now rid password ivUpdate).result = .ok v →
      (retrieveSecret P systemKey s now rid password ivUpdate).delays = []) := by
  refine ⟨?_, ?_, ?_⟩
  · intro e he
    unfold retrieveSecret at he ⊢
    rcases hres : (retrieveSecretTry P systemKey s now rid password ivUpdate).result
      with e' | v <;> simp only [hres] at he ⊢
    · simp
    · exact absurd he (by simp)
  · intro habsent
    simp only [retrieveSecret, retrieveSecretTry, habsent]
    rfl
  · intro v hok
    unfold retrieveSecret at hok ⊢
    rcases hres : (retrieveSecretTry P systemKey s now rid password ivUpdate).result
      with e' | v' <;> simp only [hres] at hok ⊢
    · exact absurd hok (by simp)
    · exact retrieveSecretTry_ok_delays P systemKey s now rid password ivUpdate v' hres

/-- A value is at rest in system-key-encrypted form. -/
def systemEncrypted (P : Prims) (systemKey : Bytes) (v : Str) : Prop :=
  ∃ d iv, v = encryptWithSystemKey P systemKey d iv

/-- Every value held by the store is system-key encrypted. -/
def storeEncrypted (P : Prims) (systemKey : Bytes) (s : Store) : Prop :=
  ∀ kv ∈ s, systemEncrypted P systemKey kv.2.value

theorem storeEncrypted_storeSet (P : Prims) (systemKey : Bytes) (s : Store)
    (k v : Str) (t : Int) (hs : storeEncrypted P systemKey s)
    (hv : systemEncrypted P systemKey v) :
    storeEncrypted P systemKey (storeSet k v t s) := by
  intro kv hkv
  rcases List.mem_cons.mp hkv with rfl | hkv
  · exact hv
  · exact hs kv (List.mem_of_mem_filter hkv)

theorem storeEncrypted_storeDel (P : Prims) (systemKey : Bytes) (s : Store)
    (k : Str) (hs : storeEncrypted P systemKey s) :
    storeEncrypted P systemKey (storeDel k s) := fun kv hkv =>
  hs kv (List.mem_of_mem_filter hkv)

theorem storeEncrypted_saveSecretRequest (P : Prims) (systemKey : Bytes)
    (request : SecretRequest) (iv : Bytes) (s : Store)
    (hs : storeEncrypted P systemKey s) :
    storeEncrypted P systemKey (saveSecretRequest P systemKey request iv s) :=
  storeEncrypted_storeSet P systemKey s _ _ _ hs ⟨_, iv, rfl⟩

/-- C9: at-rest encryption invariant — every value the lifecycle manager
writes to the TTL store (request records, submitted-secret records, and
re-encrypted decremented records) is system-key encrypted, so a store
holding only encrypted values still holds only encrypted values after
`saveSecretRequest`, `submitSecret` or `retrieveSecret`; and the read
path `getSecretRequest` decrypts a well-formed stored value with the
system key and parses it back to the original record. -/
theorem C9_at_rest_encryption (P : Prims) (systemKey : Bytes) (s : Store)
    (hs : storeEncrypted P systemKey s) :
    (∀ request iv,
      storeEncrypted P systemKey (saveSecretRequest P systemKey request iv s)) ∧
    (∀ requestId secret password retrievalId now salt iv hashSalt ivSystem
        ivSecret ivRequest,
      storeEncrypted P systemKey
        (submitSecret P systemKey requestId secret password retrievalId now
          salt iv hashSalt ivSystem ivSecret ivRequest s).2) ∧
    (∀ now rid password ivUpdate,
      storeEncrypted P systemKey
        (retrieveSecret P systemKey s now rid password ivUpdate).store) ∧
    (∀ requestId request iv t,
      storeGet (requestKey requestId) s =
        some ⟨encryptWithSystemKey P systemKey (P.serializeRequest request) iv, t⟩ →
      getSecretRequest P systemKey requestId s = .ok (some request)) := by
  refine ⟨?_, ?_, ?_, ?_⟩
  · intro request iv
    exact storeEncrypted_saveSecretRequest P systemKey request iv s hs
  · intro requestId secret password retrievalId now salt iv hashSalt ivSystem
      ivSecret ivRequest
    unfold submitSecret
    rcases h1 : getSecretRequest P systemKey requestId s with e | req <;>
      simp only [h1]
    · exact hs
    rcases req with _ | request <;> simp only []
    · exact hs
    by_cases hst : request.status = .submitted <;>
      simp only [hst, if_true, if_false, ite_true, ite_false]
    · exact hs
    · exact storeEncrypted_saveSecretRequest P systemKey _ ivRequest _
        (storeEncrypted_storeSet P systemKey s _ _ _ hs ⟨_, ivSecret, rfl⟩)
  · intro now rid password ivUpdate
    unfold retrieveSecret retrieveSecretTry
    dsimp only
    repeat' split
    all_goals
      first
      | exact hs
      | exact storeEncrypted_storeDel P systemKey s _ hs
      | exact storeEncrypted_storeSet P systemKey s _ _ _ hs ⟨_, _, rfl⟩
  · intro requestId request iv t hget
    unfold getSecretRequest
    simp only [hget, decryptWithSystemKey_encryptWithSystemKey,
      P.parseRequest_serializeRequest]

/-! ## Concrete witness data -/

/-- A valid 32-byte system key. -/
def wKey : Bytes := List.replicate 32 0

/-- Witness password. -/
def wPassword : Str := strLit "pw"

/-- A different password (different first code unit). -/
def wWrongPassword : Str := strLit "qw"

/-- Witness plaintext secret. -/
def wSecret : Str := strLit "s"

/-- Witness retrieval id. -/
def wRid : Str := strLit "r"

/-- A well-formed stored record with one view remaining. -/
def wRec : SubmittedSecret :=
  { retrievalId := wRid
    requestId := strLit "q"
    encryptedSecret := (dualEncrypt toyPrims wKey wSecret wPassword [] [] [] []).1
    passwordHash := hashPassword toyPrims wPassword []
    viewsRemaining := some 1
    expiresAt := 5
    createdAt := 0 }

/-- The same record with three views remaining. -/
def wRec2 : SubmittedSecret := { wRec with viewsRemaining := some 3 }

/-- The same record already expired. -/
def wRecExp : SubmittedSecret := { wRec with expiresAt := 1 }

/-- A store holding `wRec` in encrypted form. -/
def wStore : Store :=
  [(secretKey wRid,
    ⟨encryptWithSystemKey toyPrims wKey (toyPrims.serializeSecret wRec) [], 7⟩)]

/-- A store holding `wRec2` in encrypted form. -/
def wStore2 : Store :=
  [(secretKey wRid,
    ⟨encryptWithSystemKey toyPrims wKey (toyPrims.serializeSecret wRec2) [], 7⟩)]

/-- A store holding the expired `wRecExp` in encrypted form. -/
def wStoreExp : Store :=
  [(secretKey wRid,
    ⟨encryptWithSystemKey toyPrims wKey (toyPrims.serializeSecret wRecExp) [], 7⟩)]

/-- A pending witness request. -/
def wReq : SecretRequest :=
  { requestId := strLit "q"
    requestorEmail := strLit "e"
    description := strLit "d"
    retentionType := .view
    retentionValue := 1
    status := .pending
    createdAt := 0
    submittedAt := none }

/-! ## Witnesses and counterexamples -/

/-- Witness for C1 at a concrete plaintext, password and key. -/
theorem C1_dual_round_trip_witness :
    wKey.length = 32 ∧
      dualDecrypt toyPrims wKey
        (dualEncrypt toyPrims wKey wSecret wPassword [] [] [] []).1 wPassword =
        .ok wSecret :=
  ⟨by decide,
    C1_dual_round_trip toyPrims wKey (by decide) wSecret wPassword [] [] [] []⟩

/-- Witness for C2: one view remaining, correct password, before expiry —
the plaintext comes back with `viewsRemaining = 0` and the record is gone. -/
theorem C2_view_exhaustion_witness :
    (retrieveSecret toyPrims wKey wStore 3 wRid wPassword []).result =
        .ok (wSecret, some 0) ∧
      storeGet (secretKey wRid)
        (retrieveSecret toyPrims wKey wStore 3 wRid wPassword []).store = none :=
  (C2_view_exhaustion toyPrims wKey wStore 3 wRid wPassword wSecret wRec [] [] 7
    [] [] [] [] [] rfl (by decide) rfl rfl).1 rfl

/-- Witness for C6 at a concrete expired record. -/
theorem C6_expiry_deletes_witness :
    (retrieveSecret toyPrims wKey wStoreExp 3 wRid wPassword []).result =
        .error secretExpiredMsg ∧
      storeGet (secretKey wRid)
        (retrieveSecret toyPrims wKey wStoreExp 3 wRid wPassword []).store = none :=
  C6_expiry_deletes toyPrims wKey wStoreExp 3 wRid wPassword wRecExp [] [] 7 rfl
    (by decide)

set_option maxRecDepth 100000 in
/-- Witness for C7: a successful concrete retrieval, whose trace is the
`verifyPassword true` return followed by the `dualDecrypt` invocation. -/
theorem C7_verify_before_decrypt_witness :
    (retrieveSecret toyPrims wKey wStore 3 wRid wPassword []).events =
      [CryptoEvent.verify true, CryptoEvent.passwordDecrypt] :=
  C7_verify_before_decrypt toyPrims wKey wStore 3 wRid wPassword [] (by decide)

set_option maxRecDepth 100000 in
/-- Witness for the amended C4: a concrete absent-record retrieval and a
concrete wrong-password retrieval produce the same error message, which
the HTTP layer maps to 500. -/
theorem C4_amended_witness :
    (retrieveSecret toyPrims wKey [] 0 wRid wPassword []).result =
        .error invalidOrNotFoundMsg ∧
      (retrieveSecret toyPrims wKey wStore 3 wRid wWrongPassword []).result =
        .error invalidOrNotFoundMsg ∧
      retrieveErrorHttpStatus invalidOrNotFoundMsg = 500 :=
  C4_amended_conflated_error_signals toyPrims wKey [] wStore 0 3 wRid wRid
    wPassword wWrongPassword [] [] [] wRec 7 rfl rfl (by decide) (by decide)

set_option maxRecDepth 100000 in
/-- Counterexample to C4 as stated: the absent-record outcome and the
failed-verification outcome of `retrieveSecret` carry the identical
message text, and the HTTP layer maps it to neither 404 nor 401. -/
theorem C4_error_signal_counterexample :
    (retrieveSecret toyPrims wKey [] 0 wRid wPassword []).result =
        .error (strLit "Invalid password or secret not found") ∧
      (retrieveSecret toyPrims wKey wStore 3 wRid wWrongPassword []).result =
        .error (strLit "Invalid password or secret not found") ∧
      retrieveErrorHttpStatus (strLit "Invalid password or secret not found") ≠ 404 ∧
      retrieveErrorHttpStatus (strLit "Invalid password or secret not found") ≠ 401 := by
  refine ⟨by decide, by decide, by decide, by decide⟩

/-- Witness for the amended C5: a concrete absent-record retrieval awaits
the jitter and the catch-handler floor pad. -/
theorem C5_amended_witness :
    (retrieveSecret toyPrims wKey [] 0 wRid wPassword []).delays =
      [ArtificialDelay.jitter, ArtificialDelay.floorPad] :=
  (C5_amended_padding_on_failure toyPrims wKey [] 0 wRid wPassword []).2.1 rfl

set_option maxRecDepth 100000 in
/-- Counterexample to C5 as stated: a concrete successful retrieval
(three views remaining, correct password, before expiry) completes with
no artificial delay awaited on its path at all. -/
theorem C5_timing_counterexample :
    (retrieveSecret toyPrims wKey wStore2 3 wRid wPassword []).result =
        .ok (wSecret, some 2) ∧
      (retrieveSecret toyPrims wKey wStore2 3 wRid wPassword []).delays = [] := by
  refine ⟨by decide, by decide⟩

/-- Witness for the amended C8: a stored hash with no separator raises
the `Buffer.from(undefined)` error for a concrete password. -/
theorem C8_amended_witness :
    verifyPassword toyPrims wPassword (strLit "abc") = .error bufferTypeErrMsg :=
  (C8_amended_malformed_hash toyPrims wPassword (strLit "abc")).1 (by decide)

/-- Counterexample to C8 as stated: a stored hash whose salt field is
missing (empty before the separator) but whose hash field decodes to 32
bytes makes `verifyPassword` return `false` instead of raising. -/
theorem C8_malformed_hash_counterexample :
    verifyPassword toyPrims wPassword
      (colon :: hexEncode (List.replicate 32 1)) = .ok false := by
  decide

/-- Witness for C9: starting from the empty (vacuously encrypted) store,
saving a concrete request keeps every stored value system-key encrypted. -/
theorem C9_at_rest_encryption_witness :
    storeEncrypted toyPrims wKey (saveSecretRequest toyPrims wKey wReq [] []) :=
  (C9_at_rest_encryption toyPrims wKey []
    (fun kv hkv => absurd hkv (List.not_mem_nil kv))).1 wReq []
